import Mathlib

/-!
Verification of `internal/fusefrontend/root_node.go` (gocryptfs).

The Go functions are shallowly embedded as Lean functions:

* `mangleOpenFlags` — pure bit manipulation on open(2) flags.  Go `int`
  values are modelled as `Nat`; Go's bit-clear operator `x &^ m` (64-bit
  two's-complement and-not, applied here only to non-negative values
  below 2^64) is modelled by `goAndNot`.  The flag constants carry the
  Linux/amd64 values the Go file compiles against (`syscall.O_*`,
  `os.O_*`, `syscallcompat.O_DIRECT`).
* `isFiltered` — state-passing embedding: it takes and returns the
  `RootNode` record, because the Go method stores 0 into `rn.IsIdle`.
* `decryptSymlinkTarget` — the two cryptographic collaborators
  (`nameTransform.B64DecodeString`, `contentEnc.DecryptBlock`) live in
  other packages and are abstracted as an `CryptoOps` record of oracle
  functions; the embedding additionally returns the list of oracle
  calls actually made, so that "the cipher is not invoked" is a
  provable statement.  Go byte slices are modelled as `String`.
* `reportMitigatedCorruption` — the channel send with a 1-second
  timeout is modelled as a function of two environment facts: whether
  `rn.MitigatedCorruptions` is non-nil, and whether a consumer drains
  the channel within the timeout.  Elapsed time is returned as data.
* `openWriteOnlyFile` — an interpreter over an abstract backing file
  (its stat mode) with per-syscall fault injection (`Faults`), which
  returns the final error, the final file mode, and the full trace of
  syscall and lock events in the order the Go code performs them
  (deferred calls run last-in-first-out at return).
-/

/-- Linux open(2) access mode: read-only. -/
def O_RDONLY : Nat := 0

/-- Linux open(2) access mode: write-only (`syscall.O_WRONLY`, also `os.O_WRONLY`). -/
def O_WRONLY : Nat := 1

/-- Linux open(2) access mode: read-write (`os.O_RDWR`). -/
def O_RDWR : Nat := 2

/-- Linux mask selecting the access-mode bits (`syscall.O_ACCMODE`). -/
def O_ACCMODE : Nat := 3

/-- Linux `syscall.O_CREAT` (0o100). -/
def O_CREAT : Nat := 64

/-- Linux `os.O_APPEND` (0o2000). -/
def O_APPEND : Nat := 1024

/-- Linux/amd64 `syscallcompat.O_DIRECT` (0o40000). -/
def O_DIRECT : Nat := 16384

/-- Linux `syscall.O_NOFOLLOW` (0o400000). -/
def O_NOFOLLOW : Nat := 131072

/-- Linux errno `EPERM`. -/
def EPERM : Nat := 1

/-- Go's bit-clear operator `n &^ m` for 64-bit integers, restricted to
non-negative values: keep exactly the bits of `n` (below 2^64) that are
not set in `m`. -/
def goAndNot (n m : Nat) : Nat := n &&& (18446744073709551615 ^^^ m)

/-- Embedding of `RootNode.mangleOpenFlags` from `root_node.go`:
convert the open flags requested by the user into the flags used to
open the backing file.  Mirrors the Go statement sequence:
`newFlags = newFlags ^ os.O_WRONLY | os.O_RDWR` when the access mode is
write-only, then `&^ os.O_APPEND`, `&^ syscallcompat.O_DIRECT`,
`&^ syscall.O_CREAT`, and finally `|= syscall.O_NOFOLLOW`. -/
def mangleOpenFlags (flags : Nat) : Nat :=
  let f1 := if flags &&& O_ACCMODE = O_WRONLY then (flags ^^^ O_WRONLY) ||| O_RDWR else flags
  let f2 := goAndNot f1 O_APPEND
  let f3 := goAndNot f2 O_DIRECT
  let f4 := goAndNot f3 O_CREAT
  f4 ||| O_NOFOLLOW

/-- Mount arguments consulted by the embedded functions (`Args.PlaintextNames`). -/
structure Args where
  PlaintextNames : Bool
deriving DecidableEq

/-- The mutable `RootNode` state touched by the embedded methods:
the mount arguments and the atomic `IsIdle` flag (a `uint32`). -/
structure RootNode where
  args : Args
  IsIdle : Nat
deriving DecidableEq

/-- Modelled from the spec: `configfile.ConfDefaultName`, the reserved
root-level configuration filename.  The `configfile` package is not
part of the sources under verification; the value is the one named by
the comment in `isFiltered` ("gocryptfs.conf in the root directory is
forbidden"). -/
def ConfDefaultName : String := "gocryptfs.conf"

/-- Modelled from the spec: `nametransform.DirIVFilename`, the
per-directory IV marker filename ("gocryptfs.diriv"), named by the
comment in `isFiltered` ("gocryptfs.diriv is NOT forbidden").  The
`nametransform` package is not part of the sources under verification. -/
def DirIVFilename : String := "gocryptfs.diriv"

/-- Embedding of `RootNode.mangleOpenFlags` as a state-passing method:
the Go method takes the receiver `rn` but neither reads nor writes any
of its fields, so the embedded method returns the state unchanged and
its result is `mangleOpenFlags` of the flags alone. -/
def mangleOpenFlagsRN (rn : RootNode) (flags : Nat) : Nat × RootNode :=
  (mangleOpenFlags flags, rn)

/-- Embedding of `RootNode.isFiltered` from `root_node.go`:
`atomic.StoreUint32(&rn.IsIdle, 0)`; then return false unless
`rn.args.PlaintextNames`; in plaintext-names mode return true exactly
for `configfile.ConfDefaultName`.  State-passing: the updated
`RootNode` is returned alongside the boolean. -/
def isFiltered (rn : RootNode) (path : String) : Bool × RootNode :=
  let rn2 : RootNode := { rn with IsIdle := 0 }
  if !rn2.args.PlaintextNames then
    (false, rn2)
  else if path = ConfDefaultName then
    (true, rn2)
  else
    (false, rn2)

/-- A call to one of the cryptographic collaborators of
`decryptSymlinkTarget`, with its arguments. -/
inductive CallEv where
  | b64Decode (arg : String)
  | decryptBlock (ciphertext : String) (blockNo : Nat)
deriving DecidableEq

/-- The two cryptographic collaborators used by `decryptSymlinkTarget`,
abstracted as oracles: `nameTransform.B64DecodeString` and
`contentEnc.DecryptBlock(ciphertext, blockNo, fileID)` (byte slices as
`String`, errors as `String`). -/
structure CryptoOps where
  B64DecodeString : String → Except String String
  DecryptBlock : String → Nat → Option String → Except String String

/-- Embedding of `RootNode.decryptSymlinkTarget` from `root_node.go`.
Returns the Go result pair (plaintext, error) together with the list
of oracle calls made.  The empty ciphertext returns early; otherwise
the input is base64-decoded and the result decrypted as content block
number 0 with a nil file id; each failing step returns the error with
the empty string. -/
def decryptSymlinkTarget (ops : CryptoOps) (cData64 : String) :
    (String × Option String) × List CallEv :=
  if cData64 = "" then
    (("", none), [])
  else
    match ops.B64DecodeString cData64 with
    | .error err => (("", some err), [.b64Decode cData64])
    | .ok cData =>
      match ops.DecryptBlock cData 0 none with
      | .error err => (("", some err), [.b64Decode cData64, .decryptBlock cData 0])
      | .ok data => ((data, none), [.b64Decode cData64, .decryptBlock cData 0])

/-- Outcome of `reportMitigatedCorruption`: the channel was nil, the
item was sent, or the 1-second timeout fired. -/
inductive ReportOutcome where
  | noChannel
  | delivered
  | timedOut
deriving DecidableEq

/-- Observable result of `reportMitigatedCorruption`: outcome, the item
actually handed to the channel (if any), seconds spent blocked in the
`select`, and whether the timeout warning was logged. -/
structure ReportOut where
  outcome : ReportOutcome
  sent : Option String
  waitedSeconds : Nat
  warned : Bool
deriving DecidableEq

/-- Embedding of `RootNode.reportMitigatedCorruption` from
`root_node.go`.  `hasChannel` models `rn.MitigatedCorruptions != nil`;
`consumerReady` models whether a receiver takes the item from the
channel before the 1-second `time.After` fires.  If the channel is nil
the function returns at once; otherwise the `select` either delivers
the item or times out after one second and logs a warning. -/
def reportMitigatedCorruption (hasChannel consumerReady : Bool) (item : String) : ReportOut :=
  if !hasChannel then
    ⟨.noChannel, none, 0, false⟩
  else if consumerReady then
    ⟨.delivered, some item, 0, false⟩
  else
    ⟨.timedOut, none, 1, true⟩

/-- The abstract backing file seen by `openWriteOnlyFile`: its stat
mode (`st.Mode`, permission bits plus file-type bits). -/
structure World where
  mode : Nat
deriving DecidableEq

/-- Per-syscall fault injection for `openWriteOnlyFile`: `none` means
the syscall succeeds, `some e` means it fails with errno `e`. -/
structure Faults where
  openWO : Option Nat
  fstatCall : Option Nat
  chmodRelax : Option Nat
  openRW : Option Nat
  chmodRevert : Option Nat
deriving DecidableEq

/-- A syscall or lock event performed by `openWriteOnlyFile`, in
program order (deferred calls run last-in-first-out at return). -/
inductive Ev where
  | openat (flags : Nat)
  | fstat
  | fchmod (v : Nat)
  | close
  | runlock
  | lock
  | unlock
  | rlock
deriving DecidableEq

/-- Result of `openWriteOnlyFile`: the returned error (`none` = a
read-write fd was returned), the final state of the backing file, and
the event trace. -/
structure OwofOut where
  rwErr : Option Nat
  world : World
  trace : List Ev
deriving DecidableEq

/-- Embedding of `RootNode.openWriteOnlyFile` from `root_node.go`.
Control flow mirrors the Go function line by line:
open write-only (`O_WRONLY|O_NOFOLLOW`), defer close; fstat, keep
`perms := st.Mode`; return `EPERM` if `perms&0400 != 0`; `RUnlock`
then `Lock` the write-only-open lock, defer (`Unlock`; `RLock`);
`Fchmod(perms|0400)`, returning its error on failure; defer
`Fchmod(perms)` (the revert, which only takes effect if its own
syscall succeeds); finally open again with the mangled flags and
return that result.  Deferred calls appear in the trace in their
execution order. -/
def openWriteOnlyFile (w : World) (f : Faults) (newFlags : Nat) : OwofOut :=
  match f.openWO with
  | some e => ⟨some e, w, [.openat (O_WRONLY ||| O_NOFOLLOW)]⟩
  | none =>
    match f.fstatCall with
    | some e => ⟨some e, w, [.openat (O_WRONLY ||| O_NOFOLLOW), .fstat, .close]⟩
    | none =>
      let perms := w.mode
      if perms &&& 256 ≠ 0 then
        ⟨some EPERM, w, [.openat (O_WRONLY ||| O_NOFOLLOW), .fstat, .close]⟩
      else
        match f.chmodRelax with
        | some e =>
          ⟨some e, w,
            [.openat (O_WRONLY ||| O_NOFOLLOW), .fstat, .runlock, .lock,
             .fchmod (perms ||| 256), .unlock, .rlock, .close]⟩
        | none =>
          let wFinal : World :=
            match f.chmodRevert with
            | some _ => ⟨perms ||| 256⟩
            | none => ⟨perms⟩
          let res : Option Nat :=
            match f.openRW with
            | some e => some e
            | none => none
          ⟨res, wFinal,
            [.openat (O_WRONLY ||| O_NOFOLLOW), .fstat, .runlock, .lock,
             .fchmod (perms ||| 256), .openat newFlags, .fchmod perms,
             .unlock, .rlock, .close]⟩

/-- State of the `openWriteOnlyLock` read/write lock as seen from the
calling goroutine: it holds a read share, holds the write lock, or
holds nothing. -/
inductive LockSt where
  | free
  | shared
  | exclusive
deriving DecidableEq

/-- Effect of one event on the caller's hold of the
write-only-open lock; `none` flags a misuse (releasing or acquiring
in the wrong state). -/
def lockStep : LockSt → Ev → Option LockSt
  | .shared, .runlock => some .free
  | .free, .lock => some .exclusive
  | .exclusive, .unlock => some .free
  | .free, .rlock => some .shared
  | s, .openat _ => some s
  | s, .fstat => some s
  | s, .fchmod _ => some s
  | s, .close => some s
  | _, _ => none

/-- Replay a trace from a given lock state; `none` if the trace misuses
the lock. -/
def finalLock : LockSt → List Ev → Option LockSt
  | s, [] => some s
  | s, e :: rest =>
    match lockStep s e with
    | none => none
    | some s2 => finalLock s2 rest

/-- Check, replaying a trace from a given lock state, that the lock is
never misused and that every `fchmod` in the trace is performed while
the caller holds the lock exclusively. -/
def chmodsExclusive : LockSt → List Ev → Bool
  | _, [] => true
  | s, e :: rest =>
    match lockStep s e with
    | none => false
    | some s2 =>
      (match e with
       | .fchmod _ => decide (s = .exclusive)
       | _ => true) && chmodsExclusive s2 rest

/-- Whether a trace contains any `fchmod` (permission mutation) event. -/
def hasFchmod : List Ev → Bool
  | [] => false
  | e :: rest =>
    (match e with
     | .fchmod _ => true
     | _ => false) || hasFchmod rest

/-- Bit 10 (`O_APPEND`) of any mangled flag value is clear. -/
lemma mangle_tb10 (flags : Nat) : (mangleOpenFlags flags).testBit 10 = false := by
  have m1 : (18446744073709551615 ^^^ O_APPEND).testBit 10 = false := by decide
  have m2 : (18446744073709551615 ^^^ O_DIRECT).testBit 10 = true := by decide
  have m3 : (18446744073709551615 ^^^ O_CREAT).testBit 10 = true := by decide
  have m4 : O_NOFOLLOW.testBit 10 = false := by decide
  simp [mangleOpenFlags, goAndNot, Nat.testBit_lor, Nat.testBit_land, m1, m2, m3, m4]

/-- Bit 14 (`O_DIRECT`) of any mangled flag value is clear. -/
lemma mangle_tb14 (flags : Nat) : (mangleOpenFlags flags).testBit 14 = false := by
  have m1 : (18446744073709551615 ^^^ O_APPEND).testBit 14 = true := by decide
  have m2 : (18446744073709551615 ^^^ O_DIRECT).testBit 14 = false := by decide
  have m3 : (18446744073709551615 ^^^ O_CREAT).testBit 14 = true := by decide
  have m4 : O_NOFOLLOW.testBit 14 = false := by decide
  simp [mangleOpenFlags, goAndNot, Nat.testBit_lor, Nat.testBit_land, m1, m2, m3, m4]

/-- Bit 6 (`O_CREAT`) of any mangled flag value is clear. -/
lemma mangle_tb6 (flags : Nat) : (mangleOpenFlags flags).testBit 6 = false := by
  have m1 : (18446744073709551615 ^^^ O_APPEND).testBit 6 = true := by decide
  have m2 : (18446744073709551615 ^^^ O_DIRECT).testBit 6 = true := by decide
  have m3 : (18446744073709551615 ^^^ O_CREAT).testBit 6 = false := by decide
  have m4 : O_NOFOLLOW.testBit 6 = false := by decide
  simp [mangleOpenFlags, goAndNot, Nat.testBit_lor, Nat.testBit_land, m1, m2, m3, m4]

/-- Bit 17 (`O_NOFOLLOW`) of any mangled flag value is set. -/
lemma mangle_tb17 (flags : Nat) : (mangleOpenFlags flags).testBit 17 = true := by
  have m4 : O_NOFOLLOW.testBit 17 = true := by decide
  simp [mangleOpenFlags, goAndNot, Nat.testBit_lor, Nat.testBit_land, m4]

/-- Bit 0 of the mangled flags: cleared by the write-only-to-read-write
conversion, untouched otherwise. -/
lemma mangle_tb0 (flags : Nat) :
    (mangleOpenFlags flags).testBit 0 =
      (if flags &&& O_ACCMODE = O_WRONLY then false else flags.testBit 0) := by
  have m1 : (18446744073709551615 ^^^ O_APPEND).testBit 0 = true := by decide
  have m2 : (18446744073709551615 ^^^ O_DIRECT).testBit 0 = true := by decide
  have m3 : (18446744073709551615 ^^^ O_CREAT).testBit 0 = true := by decide
  have m4 : O_NOFOLLOW.testBit 0 = false := by decide
  have w0 : O_WRONLY.testBit 0 = true := by decide
  have r0 : O_RDWR.testBit 0 = false := by decide
  by_cases h : flags &&& O_ACCMODE = O_WRONLY
  · have hb0 : flags.testBit 0 = true := by
      have := congrArg (fun n => n.testBit 0) h
      simpa [Nat.testBit_land, O_ACCMODE, O_WRONLY] using this
    simp only [mangleOpenFlags, goAndNot, if_pos h, Nat.testBit_lor, Nat.testBit_land,
      Nat.testBit_xor, hb0, m1, m2, m3, m4, w0, r0]
    decide
  · simp only [mangleOpenFlags, goAndNot, if_neg h, Nat.testBit_lor, Nat.testBit_land,
      m1, m2, m3, m4]
    simp

/-- Bit 1 of the mangled flags: set by the write-only-to-read-write
conversion, untouched otherwise. -/
lemma mangle_tb1 (flags : Nat) :
    (mangleOpenFlags flags).testBit 1 =
      (if flags &&& O_ACCMODE = O_WRONLY then true else flags.testBit 1) := by
  have m1 : (18446744073709551615 ^^^ O_APPEND).testBit 1 = true := by decide
  have m2 : (18446744073709551615 ^^^ O_DIRECT).testBit 1 = true := by decide
  have m3 : (18446744073709551615 ^^^ O_CREAT).testBit 1 = true := by decide
  have m4 : O_NOFOLLOW.testBit 1 = false := by decide
  have w1 : O_WRONLY.testBit 1 = false := by decide
  have r1 : O_RDWR.testBit 1 = true := by decide
  by_cases h : flags &&& O_ACCMODE = O_WRONLY
  · simp only [mangleOpenFlags, goAndNot, if_pos h, Nat.testBit_lor, Nat.testBit_land,
      Nat.testBit_xor, m1, m2, m3, m4, w1, r1]
    simp
  · simp only [mangleOpenFlags, goAndNot, if_neg h, Nat.testBit_lor, Nat.testBit_land,
      m1, m2, m3, m4]
    simp

/-- Bits of the constant 3 (the access-mode mask). -/
lemma testBit_three (i : Nat) : (3 : Nat).testBit i = decide (i = 0 ∨ i = 1) := by
  match i with
  | 0 => decide
  | 1 => decide
  | (n+2) =>
    have h3 : (3 : Nat) < 2 ^ (n + 2) := by
      calc (3 : Nat) < 4 := by norm_num
      _ = 2 ^ 2 := by norm_num
      _ ≤ 2 ^ (n + 2) := Nat.pow_le_pow_right (by norm_num) (by omega)
    simp [Nat.testBit_lt_two_pow h3]

/-- Two numbers agreeing on bits 0 and 1 agree after masking with 3. -/
lemma and_three_eq (x y : Nat) (h0 : x.testBit 0 = y.testBit 0)
    (h1 : x.testBit 1 = y.testBit 1) : x &&& 3 = y &&& 3 := by
  apply Nat.eq_of_testBit_eq
  intro i
  rw [Nat.testBit_land, Nat.testBit_land, testBit_three]
  match i with
  | 0 => simp [h0]
  | 1 => simp [h1]
  | (n+2) => simp

/-- C1: for every requested flags value, `mangleOpenFlags` converts a
write-only access mode to read-write, clears the append bit, clears
the direct-I/O bit, clears the create bit, and sets the
no-follow-symlink bit, regardless of the other bits of the input. -/
theorem C1_mangleOpenFlags_mangles (flags : Nat) :
    (flags &&& O_ACCMODE = O_WRONLY → mangleOpenFlags flags &&& O_ACCMODE = O_RDWR)
    ∧ mangleOpenFlags flags &&& O_APPEND = 0
    ∧ mangleOpenFlags flags &&& O_DIRECT = 0
    ∧ mangleOpenFlags flags &&& O_CREAT = 0
    ∧ mangleOpenFlags flags &&& O_NOFOLLOW = O_NOFOLLOW := by
  refine ⟨?_, ?_, ?_, ?_, ?_⟩
  · intro h
    show mangleOpenFlags flags &&& 3 = 2
    have h2 : (2 : Nat) = 2 &&& 3 := by decide
    rw [h2]
    apply and_three_eq
    · rw [mangle_tb0, if_pos h]; decide
    · rw [mangle_tb1, if_pos h]; decide
  · show mangleOpenFlags flags &&& 1024 = 0
    have e : (1024 : Nat) = 2 ^ 10 := by norm_num
    rw [e, Nat.and_two_pow, mangle_tb10]
    rfl
  · show mangleOpenFlags flags &&& 16384 = 0
    have e : (16384 : Nat) = 2 ^ 14 := by norm_num
    rw [e, Nat.and_two_pow, mangle_tb14]
    rfl
  · show mangleOpenFlags flags &&& 64 = 0
    have e : (64 : Nat) = 2 ^ 6 := by norm_num
    rw [e, Nat.and_two_pow, mangle_tb6]
    rfl
  · show mangleOpenFlags flags &&& 131072 = 131072
    have e : (131072 : Nat) = 2 ^ 17 := by norm_num
    rw [e, Nat.and_two_pow, mangle_tb17]
    rfl

/-- C1 witness: the spec's own test vector, a write-only, append-mode,
direct-I/O request (flags 1 + 1024 + 16384 = 17409). -/
theorem C1_mangleOpenFlags_mangles_witness :
    mangleOpenFlags 17409 &&& O_ACCMODE = O_RDWR
    ∧ mangleOpenFlags 17409 &&& O_APPEND = 0
    ∧ mangleOpenFlags 17409 &&& O_DIRECT = 0
    ∧ mangleOpenFlags 17409 &&& O_CREAT = 0
    ∧ mangleOpenFlags 17409 &&& O_NOFOLLOW = O_NOFOLLOW := by
  have h := C1_mangleOpenFlags_mangles 17409
  exact ⟨h.1 (by decide), h.2.1, h.2.2.1, h.2.2.2.1, h.2.2.2.2⟩

/-- C10: for every flags value whose access mode is read-only or
read-write, `mangleOpenFlags` leaves the access-mode bits unchanged
(only write-only opens are upgraded); and, as a method, it is a pure
function of its flags argument that leaves the `RootNode` state
untouched. -/
theorem C10_mangleOpenFlags_preserves_accmode (flags : Nat)
    (h : flags &&& O_ACCMODE = O_RDONLY ∨ flags &&& O_ACCMODE = O_RDWR) :
    mangleOpenFlags flags &&& O_ACCMODE = flags &&& O_ACCMODE
    ∧ ∀ rn : RootNode, mangleOpenFlagsRN rn flags = (mangleOpenFlags flags, rn) := by
  have hne : ¬flags &&& O_ACCMODE = O_WRONLY := by
    rcases h with h | h <;> rw [h] <;> decide
  constructor
  · show mangleOpenFlags flags &&& 3 = flags &&& 3
    apply and_three_eq
    · rw [mangle_tb0, if_neg hne]
    · rw [mangle_tb1, if_neg hne]
  · intro rn
    rfl

/-- C10 witness: a read-only open (flags 0) keeps access mode 0, and
the method leaves a concrete `RootNode` unchanged. -/
theorem C10_mangleOpenFlags_preserves_accmode_witness :
    mangleOpenFlags 0 &&& O_ACCMODE = 0 &&& O_ACCMODE
    ∧ mangleOpenFlagsRN ⟨⟨true⟩, 5⟩ 0 = (mangleOpenFlags 0, ⟨⟨true⟩, 5⟩) := by
  have h := C10_mangleOpenFlags_preserves_accmode 0 (Or.inl (by decide))
  exact ⟨h.1, h.2 ⟨⟨true⟩, 5⟩⟩

/-- C8: on every path through `openWriteOnlyFile`, the write-only-open
lock is never misused, every permission change (`fchmod`) is performed
while the lock is held exclusively (after the shared-to-exclusive
upgrade), and the lock is back in shared mode on every exit path. -/
theorem C8_openWriteOnlyFile_lock_discipline (w : World) (f : Faults) (newFlags : Nat) :
    chmodsExclusive .shared (openWriteOnlyFile w f newFlags).trace = true
    ∧ finalLock .shared (openWriteOnlyFile w f newFlags).trace = some LockSt.shared := by
  obtain ⟨o1, o2, o3, o4, o5⟩ := f
  by_cases hp : w.mode &&& 256 ≠ 0 <;>
    cases o1 <;> cases o2 <;> cases o3 <;> cases o4 <;> cases o5 <;>
      simp [openWriteOnlyFile, chmodsExclusive, finalLock, lockStep, hp]

/-- C2 counterexample: a backing file of mode 0o100040 (a regular file
readable by its group but not by its owner) has permission bits that
include read access, yet `openWriteOnlyFile` does not return `EPERM`
for it — the owner-read check `perms&0400` passes — and it does issue
permission mutations (fchmod events). -/
theorem C2_counterexample_group_readable :
    0o100040 &&& 0o444 ≠ 0
    ∧ (openWriteOnlyFile ⟨0o100040⟩ ⟨none, none, none, none, none⟩ 2).rwErr ≠ some EPERM
    ∧ hasFchmod (openWriteOnlyFile ⟨0o100040⟩ ⟨none, none, none, none, none⟩ 2).trace
        = true := by
  decide

/-- C2 (amended): for every backing file whose mode has the owner-read
bit 0400 set, `openWriteOnlyFile` (with the preceding open and fstat
succeeding) returns `EPERM`, leaves the file's mode untouched, and
issues no permission mutation at all. -/
theorem C2_amended_openWriteOnlyFile_eperm (w : World) (f : Faults) (newFlags : Nat)
    (hr : w.mode &&& 256 ≠ 0) (h1 : f.openWO = none) (h2 : f.fstatCall = none) :
    (openWriteOnlyFile w f newFlags).rwErr = some EPERM
    ∧ (openWriteOnlyFile w f newFlags).world = w
    ∧ hasFchmod (openWriteOnlyFile w f newFlags).trace = false := by
  obtain ⟨o1, o2, o3, o4, o5⟩ := f
  cases o1 with
  | some e => exact Option.noConfusion h1
  | none =>
    cases o2 with
    | some e => exact Option.noConfusion h2
    | none =>
      simp [openWriteOnlyFile, hasFchmod, hr]

/-- C2 (amended) witness: a file of mode 0o100400 (owner-readable)
with all syscalls succeeding. -/
theorem C2_amended_openWriteOnlyFile_eperm_witness :
    (openWriteOnlyFile ⟨0o100400⟩ ⟨none, none, none, none, none⟩ 2).rwErr = some EPERM
    ∧ (openWriteOnlyFile ⟨0o100400⟩ ⟨none, none, none, none, none⟩ 2).world = ⟨0o100400⟩
    ∧ hasFchmod (openWriteOnlyFile ⟨0o100400⟩ ⟨none, none, none, none, none⟩ 2).trace
        = false :=
  C2_amended_openWriteOnlyFile_eperm ⟨0o100400⟩ ⟨none, none, none, none, none⟩ 2
    (by decide) rfl rfl

/-- C3: for every genuinely write-only backing file (owner-read bit
clear), provided the reverting fchmod syscall itself succeeds, the
file's mode after `openWriteOnlyFile` returns equals the mode observed
by the initial fstat — whichever of the other syscalls failed,
including the intermediate read-write open; and on the path that
relaxed the permissions, the trace contains a chmod back to exactly
the statted mode (the restored value comes from the stat, so unrelated
permission bits survive exactly). -/
theorem C3_openWriteOnlyFile_restores_mode (w : World) (f : Faults) (newFlags : Nat)
    (hwo : w.mode &&& 256 = 0) (hrev : f.chmodRevert = none) :
    (openWriteOnlyFile w f newFlags).world = w
    ∧ (f.openWO = none → f.fstatCall = none → f.chmodRelax = none →
        Ev.fchmod w.mode ∈ (openWriteOnlyFile w f newFlags).trace) := by
  obtain ⟨o1, o2, o3, o4, o5⟩ := f
  cases o5 with
  | some e => exact Option.noConfusion hrev
  | none =>
    cases o1 <;> cases o2 <;> cases o3 <;> cases o4 <;>
      simp [openWriteOnlyFile, hwo]

/-- C3 witness: a write-only file of mode 0o100200 with every syscall
succeeding: the final mode is the initial mode and the trace carries
the reverting chmod to that exact mode. -/
theorem C3_openWriteOnlyFile_restores_mode_witness :
    (openWriteOnlyFile ⟨0o100200⟩ ⟨none, none, none, none, none⟩ 2).world = ⟨0o100200⟩
    ∧ Ev.fchmod 0o100200
        ∈ (openWriteOnlyFile ⟨0o100200⟩ ⟨none, none, none, none, none⟩ 2).trace := by
  have h := C3_openWriteOnlyFile_restores_mode ⟨0o100200⟩ ⟨none, none, none, none, none⟩ 2
    (by decide) rfl
  exact ⟨h.1, h.2 rfl rfl rfl⟩

/-- C4: decrypting the empty symlink target returns the empty string
with no error, and invokes neither the base64 decoder nor the block
cipher (for every choice of cryptographic collaborators). -/
theorem C4_decryptSymlinkTarget_empty (ops : CryptoOps) :
    decryptSymlinkTarget ops "" = (("", none), []) := by
  simp [decryptSymlinkTarget]

/-- C7: on every non-empty input, `decryptSymlinkTarget` base64-decodes
the input and decrypts the decoded bytes as a single content block at
block index 0 with a nil file id; if the base64 decoding or the
authenticated block decryption fails, it returns that error together
with the empty string, releasing no plaintext bytes. -/
theorem C7_decryptSymlinkTarget_nonempty (ops : CryptoOps) (s : String) (hs : s ≠ "") :
    (∀ e, ops.B64DecodeString s = .error e →
        decryptSymlinkTarget ops s = (("", some e), [.b64Decode s]))
    ∧ ∀ c, ops.B64DecodeString s = .ok c →
        (∀ e, ops.DecryptBlock c 0 none = .error e →
            decryptSymlinkTarget ops s = (("", some e), [.b64Decode s, .decryptBlock c 0]))
        ∧ ∀ d, ops.DecryptBlock c 0 none = .ok d →
            decryptSymlinkTarget ops s = ((d, none), [.b64Decode s, .decryptBlock c 0]) := by
  refine ⟨?_, ?_⟩
  · intro e he
    simp [decryptSymlinkTarget, hs, he]
  · intro c hc
    refine ⟨?_, ?_⟩
    · intro e he
      simp [decryptSymlinkTarget, hs, hc, he]
    · intro d hd
      simp [decryptSymlinkTarget, hs, hc, hd]

/-- C7 witness: collaborators whose base64 decoding yields bytes "c"
and whose block decryption rejects them: on input "x" the function
returns the authentication error with the empty string after calling
base64 on "x" and the cipher on "c" at block 0. -/
theorem C7_decryptSymlinkTarget_nonempty_witness :
    decryptSymlinkTarget ⟨fun _ => Except.ok "c", fun _ _ _ => Except.error "auth"⟩ "x"
      = (("", some "auth"), [.b64Decode "x", .decryptBlock "c" 0]) := by
  have h := C7_decryptSymlinkTarget_nonempty
    ⟨fun _ => Except.ok "c", fun _ _ _ => Except.error "auth"⟩ "x" (by decide)
  exact ((h.2 "c" rfl).1 "auth" rfl)

/-- C5: `isFiltered` returns true exactly when plaintext-names mode is
enabled and the path is the reserved configuration filename, and every
call stores 0 into the `IsIdle` flag, whatever its arguments and
result. -/
theorem C5_isFiltered_spec (rn : RootNode) (path : String) :
    (isFiltered rn path).1 = (rn.args.PlaintextNames && decide (path = ConfDefaultName))
    ∧ (isFiltered rn path).2.IsIdle = 0 := by
  obtain ⟨⟨pt⟩, idle⟩ := rn
  cases pt <;> by_cases hp : path = ConfDefaultName <;> simp [isFiltered, hp]

/-- C9: in plaintext-names mode `isFiltered` reserves only the exact
configuration filename — every other path, in particular the
directory-IV marker filename, passes — and with plaintext-names mode
disabled every path passes, the configuration filename included. -/
theorem C9_isFiltered_reserves_only_conf (rn : RootNode) (path : String) :
    (rn.args.PlaintextNames = true → path ≠ ConfDefaultName →
        (isFiltered rn path).1 = false)
    ∧ (rn.args.PlaintextNames = false → (isFiltered rn path).1 = false)
    ∧ (isFiltered rn DirIVFilename).1 = false := by
  obtain ⟨⟨pt⟩, idle⟩ := rn
  have hdiriv : DirIVFilename ≠ ConfDefaultName := by decide
  refine ⟨?_, ?_, ?_⟩
  · intro hpt hne
    cases pt <;> simp [isFiltered, hne]
  · intro hpt
    cases pt with
    | false => simp [isFiltered]
    | true => exact Bool.noConfusion hpt
  · cases pt <;> simp [isFiltered, hdiriv]

/-- C9 witness: with plaintext names a non-reserved path and the
directory-IV marker pass, and without plaintext names even the
configuration filename passes. -/
theorem C9_isFiltered_reserves_only_conf_witness :
    (isFiltered ⟨⟨true⟩, 7⟩ "a").1 = false
    ∧ (isFiltered ⟨⟨false⟩, 7⟩ ConfDefaultName).1 = false
    ∧ (isFiltered ⟨⟨true⟩, 7⟩ DirIVFilename).1 = false :=
  ⟨(C9_isFiltered_reserves_only_conf ⟨⟨true⟩, 7⟩ "a").1 rfl (by decide),
   (C9_isFiltered_reserves_only_conf ⟨⟨false⟩, 7⟩ ConfDefaultName).2.1 rfl,
   (C9_isFiltered_reserves_only_conf ⟨⟨true⟩, 7⟩ DirIVFilename).2.2⟩

/-- C6: with a nil corruption channel, `reportMitigatedCorruption`
returns at once as a no-op (no wait, no send, no warning), for every
item and consumer behaviour; with a channel registered but no consumer
draining it, it returns after the bounded one-second wait and logs the
warning instead of blocking forever. -/
theorem C6_reportMitigatedCorruption_bounded (item : String) :
    (∀ consumerReady, reportMitigatedCorruption false consumerReady item
        = ⟨.noChannel, none, 0, false⟩)
    ∧ reportMitigatedCorruption true false item = ⟨.timedOut, none, 1, true⟩
    ∧ (reportMitigatedCorruption true false item).waitedSeconds ≤ 1 := by
  refine ⟨fun c => rfl, rfl, ?_⟩
  simp [reportMitigatedCorruption]
